import Mathlib

/-!
Verification of the specification of the async-testing repository.

The repository demonstrates testing of asynchronous UI updates in a
component framework.  Its components (`Counter`, `Names`, `TodoList`,
`SearchResults`) and the `services` module are embedded below directly
from the source.  The render/effect scheduler that the tests exercise
(`flushSync` / `flushAsync` / `waitFor`, i.e. the `act`-style barrier) is
not implemented in the repository (it is supplied by the external UI
framework), so it is modelled from the specification, section 4.1.
-/

namespace AsyncTesting

/-! ## Source embedding: the services module -/

/-- The `Todo` record type from `src/services/index.ts`. -/
structure Todo where
  title : String
  id : Int
  userId : Int
  completed : Bool
deriving DecidableEq, Repr

/-- `fetchTodos` from `src/services/index.ts`: given the parsed JSON
response list, the function returns `todos.slice(0, 20)`.  The network
fetch and JSON parse are abstracted into the input list. -/
def fetchTodos (todos : List Todo) : List Todo :=
  todos.take 20

/-- `fetchNames` from `src/services/index.ts`: maps the parsed users to
their names. -/
def fetchNames (users : List String) : List String :=
  users.map (fun name => name)

/-! ## Source embedding: SearchResults helpers -/

/-- `getRandomNumber` from `src/SearchResults.tsx`:
`Math.floor(Math.random() * (max - min + 1)) + min`, where the random
draw `r = Math.random()` satisfies `0 ≤ r < 1`.  The draw is passed as an
explicit rational argument. -/
def getRandomNumber (r : ℚ) (min max : Int) : Int :=
  ⌊r * ((max : ℚ) - (min : ℚ) + 1)⌋ + min

/-- The body of the `setTimeout` callback in `handleChange` of
`src/SearchResults.tsx`: for a truthy (non-empty) captured value `val` it
produces `Array.from({length}).map((_, i) => result i+1 for val)` with
`length` the random draw, for the empty value it produces `[]`.  The
drawn length is passed as `n`. -/
def timerCallbackResults (n : Nat) (val : String) : List String :=
  if val = "" then []
  else (List.range n).map (fun i => "result " ++ toString (i + 1) ++ " for " ++ val)

/-! ## Scheduler model

Modelled from the spec: the render/effect scheduler of section 4.1.  A
single component instance is modelled; its ordered state cells are
collapsed into one state value of type `σ` (a setter for one cell is a
function on the whole tuple).  The observable output of the committed
render is of type `ω`. -/

/-- Modelled from the spec: a unit of asynchronous work.  `set f` is a
promise resolution whose reaction runs a state setter; `chain t` is a
promise resolution that merely chains one more promise in front of `t`
(one extra microtask hop).  Timer callbacks carry the same shape but sit
in the macrotask queue. -/
inductive MicroTask (σ : Type) where
  | set (f : σ → σ)
  | chain (t : MicroTask σ)

/-- Size of a task: the number of microtask hops it takes to fully run it. -/
def MicroTask.size {σ : Type} : MicroTask σ → Nat
  | .set _ => 1
  | .chain t => t.size + 1

/-- Total size of a microtask queue. -/
def microQueueSize {σ : Type} (q : List (MicroTask σ)) : Nat :=
  (q.map MicroTask.size).sum

/-- Modelled from the spec: what running one effect does.  `title` is the
side-effect-derived label (the document title in the Counter example),
`update` an optional state update enqueued synchronously by the effect,
`schedule` the microtasks the effect starts (a fetch promise chain in the
TodoList example). -/
structure EffectResult (σ : Type) where
  title : Option String
  update : Option (σ → σ)
  schedule : List (MicroTask σ)

/-- Modelled from the spec: the effect re-run policy.  `always` models a
dependency-list-free effect (re-run on every render); `once` models an
effect whose dependency list never changes after mount (run only on the
first committed render). -/
inductive EffectPolicy where
  | always
  | once
deriving DecidableEq, Repr

/-- Modelled from the spec: a component as the scheduler sees it — a
render function from committed state to observable output, an effect,
and the re-run policy of the effect. -/
structure ComponentSpec (σ ω : Type) where
  render : σ → ω
  effect : σ → EffectResult σ
  policy : EffectPolicy

/-- Modelled from the spec: the scheduler state for one component.
`committed` is the state of the last committed render (what the output
reflects); `pending` the latest pending value (setters apply here);
`dirty` says whether the component sits on the Pending Work Queue;
`renderCount` counts committed render passes; `effectRan` whether the
effect has run at least once; `title` the side-effect-derived label;
`micro` the microtask queue; `timers` the macrotask (timer) queue. -/
structure Sched (σ : Type) where
  committed : σ
  pending : σ
  dirty : Bool
  renderCount : Nat
  effectRan : Bool
  title : String
  micro : List (MicroTask σ)
  timers : List (MicroTask σ)

/-- Modelled from the spec: the scheduler state right after a component
is first mounted: the mount render is pending, nothing has run. -/
def initialSched {σ : Type} (init : σ) : Sched σ :=
  ⟨init, init, true, 0, false, "", [], []⟩

/-- Modelled from the spec: running a state setter.  It computes the new
value against the latest pending value, enqueues the component on the
Pending Work Queue only when the new value differs from the pending one,
and does not render synchronously. -/
def setState {σ : Type} [DecidableEq σ] (f : σ → σ) (s : Sched σ) : Sched σ :=
  let v := f s.pending
  { s with pending := v, dirty := s.dirty || decide (¬ v = s.pending) }

/-- The committed observable output of the component. -/
def observedOutput {σ ω : Type} (spec : ComponentSpec σ ω) (s : Sched σ) : ω :=
  spec.render s.committed

/-- Modelled from the spec: whether the effect is due on this committed
render, according to its policy. -/
def effectDue {σ ω : Type} (spec : ComponentSpec σ ω) (s : Sched σ) : Bool :=
  match spec.policy with
  | .always => true
  | .once => !s.effectRan

/-- Modelled from the spec: one pass of the synchronous drain.  If the
component is dirty, the pending state is committed (a render pass), then
the due effect runs: it may set the label, enqueue a state update, and
start promise chains.  If the component is clean, nothing happens. -/
def flushPass {σ ω : Type} [DecidableEq σ] (spec : ComponentSpec σ ω) (s : Sched σ) :
    Sched σ :=
  if s.dirty then
    let s1 : Sched σ :=
      { s with committed := s.pending, dirty := false, renderCount := s.renderCount + 1 }
    if effectDue spec s1 then
      let er := spec.effect s1.committed
      let s2 : Sched σ :=
        { s1 with effectRan := true,
                  title := er.title.getD s1.title,
                  micro := s1.micro ++ er.schedule }
      match er.update with
      | none => s2
      | some f => setState f s2
    else s1
  else s

/-- Modelled from the spec: the error kinds of section 7. -/
inductive SchedError where
  | scheduleOverflow
deriving DecidableEq, Repr

/-- Modelled from the spec: the synchronous drain loop of `flushSync`.
It renders dirty components and runs due effects in a loop until the
component is clean; an effect may enqueue further state updates,
requiring further passes.  If the passes exceed the bounded iteration
cap, it fails with `ScheduleOverflowError`. -/
def drainSync {σ ω : Type} [DecidableEq σ] (spec : ComponentSpec σ ω) :
    Nat → Sched σ → Except SchedError (Sched σ)
  | 0, s => if s.dirty then .error .scheduleOverflow else .ok s
  | cap + 1, s => if s.dirty then drainSync spec cap (flushPass spec s) else .ok s

/-- Modelled from the spec: `flushSync(callback)` — run the callback
synchronously, then drain renders and effects until quiescent. -/
def flushSync {σ ω : Type} [DecidableEq σ] (spec : ComponentSpec σ ω) (cap : Nat)
    (callback : Sched σ → Sched σ) (s : Sched σ) : Except SchedError (Sched σ) :=
  drainSync spec cap (callback s)

/-- Fuel-indexed microtask drain: runs the queued microtasks in order.
Running `set f` applies the setter; running `chain t` re-enqueues `t`
(one promise hop).  The fuel is an upper bound on the number of hops. -/
def drainMicroAux {σ : Type} [DecidableEq σ] : Nat → Sched σ → Sched σ
  | 0, s => s
  | fuel + 1, s =>
    match s.micro with
    | [] => s
    | t :: rest =>
      match t with
      | .set f => drainMicroAux fuel (setState f { s with micro := rest })
      | .chain u => drainMicroAux fuel { s with micro := rest ++ [u] }

/-- Modelled from the spec: drain the microtask queue to emptiness.  Each
queued hop consumes one unit of queue size, so size-many steps suffice. -/
def drainMicro {σ : Type} [DecidableEq σ] (s : Sched σ) : Sched σ :=
  drainMicroAux (microQueueSize s.micro) s

/-- Modelled from the spec: the settle loop of `flushAsync` — repeatedly
drain the microtask queue and then the render/effect queues, until no
microtask is left at the boundary (effects may start new promise chains,
whose resolutions may dirty the component again).  Timer callbacks are
never run here. -/
def flushAsyncRounds {σ ω : Type} [DecidableEq σ] (spec : ComponentSpec σ ω) (cap : Nat) :
    Nat → Sched σ → Except SchedError (Sched σ)
  | 0, s => drainSync spec cap s
  | rounds + 1, s =>
    match drainSync spec cap (drainMicro s) with
    | .error e => .error e
    | .ok s1 => if s1.micro.isEmpty then .ok s1 else flushAsyncRounds spec cap rounds s1

/-- Modelled from the spec: `flushAsync(callback)` — run the callback,
await its settlement (drain microtasks), and drain the resulting
renders and effects, down to the microtask boundary.  Work sitting in
the timer (macrotask) queue is not touched. -/
def flushAsync {σ ω : Type} [DecidableEq σ] (spec : ComponentSpec σ ω) (cap : Nat)
    (callback : Sched σ → Sched σ) (s : Sched σ) : Except SchedError (Sched σ) :=
  flushAsyncRounds spec cap cap (callback s)

/-- Run one timer callback (in the macrotask queue the same task shapes
appear; a `chain` timer begins a promise chain). -/
def runTimerTask {σ : Type} [DecidableEq σ] (s : Sched σ) (t : MicroTask σ) : Sched σ :=
  match t with
  | .set f => setState f s
  | .chain u => { s with micro := s.micro ++ [u] }

/-- Modelled from the spec: advancing one event-loop tick — all due
timer callbacks fire, then all microtasks they spawned run, then renders
and effects drain.  This is what `await new Promise(r => setTimeout(r))`
achieves in the tests, and also what one `waitFor` poll performs before
its predicate check. -/
def advanceTick {σ ω : Type} [DecidableEq σ] (spec : ComponentSpec σ ω) (cap : Nat)
    (s : Sched σ) : Except SchedError (Sched σ) :=
  drainSync spec cap (drainMicro (s.timers.foldl runTimerTask { s with timers := [] }))

/-- Modelled from the spec: `TimeoutError`, carrying the last failure
detail as its message. -/
structure TimeoutError where
  message : String
deriving DecidableEq, Repr

/-- The synthesized message `waitFor` surfaces when it times out before
any predicate evaluation has thrown. -/
def synthesizedTimeoutMessage : String :=
  "Timed out in waitFor."

/-- Modelled from the spec: the polling loop of `waitFor`.  Poll `i`
happens at elapsed time `i * interval`; before each check the pending
renders are drained, which is abstracted into the predicate being a
function of elapsed time.  A throwing predicate (`Except.error`) counts
as not yet satisfied and is retried; the loop resolves on the first
non-throwing evaluation and times out once the bound elapses, surfacing
the last thrown error. -/
def waitForAux (pred : Nat → Except String Unit) (timeout interval : Nat) :
    Nat → Nat → String → Except TimeoutError Unit
  | 0, _, lastErr => .error ⟨lastErr⟩
  | fuel + 1, i, lastErr =>
    if i * interval < timeout then
      match pred (i * interval) with
      | .ok _ => .ok ()
      | .error e => waitForAux pred timeout interval fuel (i + 1) e
    else .error ⟨lastErr⟩

/-- Modelled from the spec: `waitFor(predicate, {timeout, interval})`. -/
def waitFor (pred : Nat → Except String Unit) (timeout interval : Nat) :
    Except TimeoutError Unit :=
  waitForAux pred timeout interval timeout 1 synthesizedTimeoutMessage

/-! ## Source embedding: the components, as the scheduler model sees them -/

/-- The displayed text of the `Counter` component of `src/Counter.tsx`
(both the paragraph and the document title use this string). -/
def counterDisplay (count : Nat) : String :=
  "You clicked " ++ toString count ++ " times"

/-- `Counter` from `src/Counter.tsx`: one state cell `count` (initial 0),
render shows the click count, and a dependency-list-free `useEffect`
sets the document title to the same text on every render. -/
def Counter : ComponentSpec Nat String :=
  ⟨fun count => counterDisplay count,
   fun count => ⟨some (counterDisplay count), none, []⟩,
   .always⟩

/-- The `handleClick` of `Counter`: `setCount((value) => value + 1)`,
run synchronously by the click event. -/
def counterHandleClick (s : Sched Nat) : Sched Nat :=
  setState (fun value => value + 1) s

/-- The list `fetchNames` is mocked to resolve with in the tests. -/
def mockNames : List String :=
  ["jill", "bob", "who cares"]

/-- `Names` from `src/Names.tsx`: one state cell (initial `[]`), renders
the list of loaded names, no effect. -/
def Names : ComponentSpec (List String) (List String) :=
  ⟨fun names => names, fun _ => ⟨none, none, []⟩, .once⟩

/-- The `handleClick` of `Names`:
`fetchNames().then((result) => setNames(result))` with the mocked
`fetchNames` — starts a promise whose resolution reaction sets the
names. -/
def namesHandleClick (s : Sched (List String)) : Sched (List String) :=
  { s with micro := s.micro ++ [MicroTask.set (fun _ => mockNames)] }

/-- `t` prefixed by `d` extra promise hops, as in
`fetchTodosWithExtraPromise` of `src/async-react.test.tsx` which awaits
the fetched todos and then one additional promise before returning. -/
def chainN {σ : Type} : Nat → MicroTask σ → MicroTask σ
  | 0, t => t
  | d + 1, t => .chain (chainN d t)

/-- The list `fetchTodos` is mocked to resolve with in the tests (the
mock omits `userId`; it is taken as 0). -/
def mockTodos : List Todo :=
  [⟨"first todo", 1, 0, false⟩, ⟨"second todo", 2, 0, true⟩, ⟨"third todo", 3, 0, true⟩]

/-- `TodoList` from `src/TodoList.tsx`: one state cell (initial `[]`),
renders the todo titles, and a `useEffect` with constant dependency list
`[fetchTodos]` that runs the injected fetch on mount and sets the todos
when its promise chain resolves after `depth` extra hops (`depth = 0` is
the plain mocked fetch; `depth = 1` is `TodoListWithExtraPromise`). -/
def TodoList (fetchResult : List Todo) (depth : Nat) : ComponentSpec (List Todo) (List String) :=
  ⟨fun todos => todos.map Todo.title,
   fun _ => ⟨none, none, [chainN depth (.set (fun _ => fetchResult))]⟩,
   .once⟩

/-- `SearchResults` from `src/SearchResults.tsx`: two state cells
`(inputValue, results)` (initial `("", [])`), renders both, no effect. -/
def SearchResults : ComponentSpec (String × List String) (String × List String) :=
  ⟨fun st => st, fun _ => ⟨none, none, []⟩, .once⟩

/-- `handleChange` from `src/SearchResults.tsx`: synchronously sets
`inputValue` to the typed value and schedules a `setTimeout` callback
(a timer/macrotask) that sets `results` from the captured value, with
`n` the drawn result count. -/
def handleChange (n : Nat) (val : String) (s : Sched (String × List String)) :
    Sched (String × List String) :=
  let s1 := setState (fun p => (val, p.2)) s
  { s1 with
      timers := s1.timers ++ [MicroTask.set (fun p => (p.1, timerCallbackResults n val))] }

/-- The committed observable output of a flush result, when it succeeded. -/
def committedOutput {σ ω : Type} (spec : ComponentSpec σ ω)
    (r : Except SchedError (Sched σ)) : Option ω :=
  match r with
  | .ok s => some (spec.render s.committed)
  | .error _ => none

/-! ## General lemmas about the scheduler model -/

theorem foldl_setState_committed {σ : Type} [DecidableEq σ] (fs : List (σ → σ)) (s : Sched σ) :
    (fs.foldl (fun a g => setState g a) s).committed = s.committed := by
  induction fs generalizing s with
  | nil => rfl
  | cons g gs ih => exact ih (setState g s)

theorem foldl_setState_renderCount {σ : Type} [DecidableEq σ] (fs : List (σ → σ))
    (s : Sched σ) :
    (fs.foldl (fun a g => setState g a) s).renderCount = s.renderCount := by
  induction fs generalizing s with
  | nil => rfl
  | cons g gs ih => exact ih (setState g s)

theorem foldl_setState_pending {σ : Type} [DecidableEq σ] (fs : List (σ → σ)) (s : Sched σ) :
    (fs.foldl (fun a g => setState g a) s).pending = fs.foldl (fun v g => g v) s.pending := by
  induction fs generalizing s with
  | nil => rfl
  | cons g gs ih => exact ih (setState g s)

theorem drainSync_clean {σ ω : Type} [DecidableEq σ] (spec : ComponentSpec σ ω) (cap : Nat)
    (s : Sched σ) (h : s.dirty = false) : drainSync spec cap s = .ok s := by
  cases cap <;> simp [drainSync, h]

theorem drainMicroAux_empty {σ : Type} [DecidableEq σ] (fuel : Nat) (s : Sched σ)
    (h : s.micro = []) : drainMicroAux fuel s = s := by
  cases fuel with
  | zero => rfl
  | succ fuel => simp only [drainMicroAux, h]

theorem microSize_chainN {σ : Type} (d : Nat) (t : MicroTask σ) :
    (chainN d t).size = d + t.size := by
  induction d with
  | zero => simp [chainN]
  | succ d ih => simp [chainN, MicroTask.size, ih]; omega

theorem drainMicroAux_single_chain {σ : Type} [DecidableEq σ] (d : Nat) :
    ∀ (fuel : Nat) (f : σ → σ) (s : Sched σ), s.micro = [chainN d (MicroTask.set f)] →
      drainMicroAux (d + fuel + 1) s = setState f { s with micro := [] } := by
  induction d with
  | zero =>
    intro fuel f s h
    have harith : 0 + fuel + 1 = fuel + 1 := by omega
    rw [harith, drainMicroAux, h]
    show drainMicroAux fuel (setState f { s with micro := [] }) = _
    exact drainMicroAux_empty fuel _ rfl
  | succ d ih =>
    intro fuel f s h
    have hstep : drainMicroAux (d + 1 + fuel + 1) s =
        drainMicroAux (d + fuel + 1) { s with micro := [chainN d (MicroTask.set f)] } := by
      have harith : d + 1 + fuel + 1 = (d + fuel + 1) + 1 := by omega
      rw [harith, drainMicroAux, h]
      rfl
    rw [hstep, ih fuel f _ rfl]

theorem drainMicro_single_chain {σ : Type} [DecidableEq σ] (d : Nat) (f : σ → σ)
    (s : Sched σ) (h : s.micro = [chainN d (MicroTask.set f)]) :
    drainMicro s = setState f { s with micro := [] } := by
  have hq : microQueueSize s.micro = d + 0 + 1 := by
    rw [h]; simp [microQueueSize, microSize_chainN, MicroTask.size]
  rw [drainMicro, hq]
  exact drainMicroAux_single_chain d 0 f s h

theorem flushAsyncRounds_step {σ ω : Type} [DecidableEq σ] (spec : ComponentSpec σ ω)
    (cap rounds : Nat) (s s1 : Sched σ) (h : drainSync spec cap (drainMicro s) = .ok s1) :
    flushAsyncRounds spec cap (rounds + 1) s =
      if s1.micro.isEmpty then .ok s1 else flushAsyncRounds spec cap rounds s1 := by
  rw [flushAsyncRounds, h]

/-! ## Claim theorems -/

/-- C9: `fetchTodos` returns at most 20 todos — for every parsed
response list, the returned list is `todos.take 20`, of length
`min 20 todos.length`, its entries agreeing with the response entries in
order; in particular a caller never receives more than 20 items. -/
theorem fetchTodos_prefix_of_min_twenty (todos : List Todo) (i : Nat)
    (h1 : i < (fetchTodos todos).length) (h2 : i < todos.length) :
    fetchTodos todos = todos.take 20 ∧
    (fetchTodos todos).length = min 20 todos.length ∧
    (fetchTodos todos).length ≤ 20 ∧
    (fetchTodos todos).get ⟨i, h1⟩ = todos.get ⟨i, h2⟩ := by
  refine ⟨rfl, ?_, ?_, ?_⟩
  · simp [fetchTodos]
  · simp [fetchTodos]
  · simp [fetchTodos, List.get_eq_getElem, List.getElem_take]

/-- C9 witness: the property evaluated on the three mocked todos. -/
theorem fetchTodos_prefix_of_min_twenty_witness :
    fetchTodos mockTodos = mockTodos.take 20 ∧
    (fetchTodos mockTodos).length = min 20 mockTodos.length ∧
    (fetchTodos mockTodos).length ≤ 20 ∧
    (fetchTodos mockTodos).get ⟨1, by decide⟩ = mockTodos.get ⟨1, by decide⟩ :=
  fetchTodos_prefix_of_min_twenty mockTodos 1 (by decide) (by decide)

/-- C10: for every random draw `0 ≤ r < 1`, `getRandomNumber(2, 50)`
equals `⌊r * 49⌋ + 2` and lies in `[2, 50]`; for every non-empty input
value the scheduled timer callback computes a list of that many entries
whose `(i+1)`-st entry (1-based) is `"result (i+1) for val"`, and for
the empty input value it computes the empty list. -/
theorem getRandomNumber_range_and_results (r : ℚ) (h0 : 0 ≤ r) (h1 : r < 1)
    (val : String) (hval : ¬ val = "") (n : Nat)
    (hn : n = (getRandomNumber r 2 50).toNat)
    (i : Nat) (hi : i < (timerCallbackResults n val).length) :
    2 ≤ getRandomNumber r 2 50 ∧
    getRandomNumber r 2 50 ≤ 50 ∧
    getRandomNumber r 2 50 = ⌊r * 49⌋ + 2 ∧
    2 ≤ n ∧ n ≤ 50 ∧
    timerCallbackResults n "" = [] ∧
    (timerCallbackResults n val).length = n ∧
    (timerCallbackResults n val).get ⟨i, hi⟩ =
      "result " ++ toString (i + 1) ++ " for " ++ val := by
  have hform : getRandomNumber r 2 50 = ⌊r * 49⌋ + 2 := by
    unfold getRandomNumber
    norm_num
  have hfloor0 : 0 ≤ ⌊r * 49⌋ := by
    apply Int.floor_nonneg.mpr
    positivity
  have hfloor48 : ⌊r * 49⌋ < 49 := by
    apply Int.floor_lt.mpr
    calc r * 49 < 1 * 49 := by
          apply mul_lt_mul_of_pos_right h1
          norm_num
      _ = 49 := by norm_num
  rw [hform] at hn
  refine ⟨?_, ?_, hform, ?_, ?_, ?_, ?_, ?_⟩
  · rw [hform]; omega
  · rw [hform]; omega
  · omega
  · omega
  · simp [timerCallbackResults]
  · simp [timerCallbackResults, hval]
  · simp [timerCallbackResults, hval, List.get_eq_getElem]

/-- C10 witness: the property evaluated at the draw `r = 1/2` (so the
drawn count is 26), input value `"abc"`, entry index 0. -/
theorem getRandomNumber_range_and_results_witness :
    2 ≤ getRandomNumber (1/2 : ℚ) 2 50 ∧
    getRandomNumber (1/2 : ℚ) 2 50 ≤ 50 ∧
    getRandomNumber (1/2 : ℚ) 2 50 = ⌊(1/2 : ℚ) * 49⌋ + 2 ∧
    2 ≤ 26 ∧ 26 ≤ 50 ∧
    timerCallbackResults 26 "" = [] ∧
    (timerCallbackResults 26 "abc").length = 26 ∧
    (timerCallbackResults 26 "abc").get ⟨0, by decide⟩ =
      "result " ++ toString (0 + 1) ++ " for " ++ "abc" :=
  getRandomNumber_range_and_results (1/2 : ℚ) (by norm_num) (by norm_num) "abc"
    (by decide) 26
    (by
      have h : (⌊(1/2 : ℚ) * 49⌋ : Int) = 24 := by norm_num
      unfold getRandomNumber
      norm_num [h]
      decide)
    0 (by decide)

/-- C3: a setter call made outside any flushSync/flushAsync/waitFor call
changes no committed output: the output observed right after the call —
and after any same-frame sequence of further setter calls — equals the
output committed before; the update is only recorded as pending. -/
theorem setter_outside_flush_output_stale {σ ω : Type} [DecidableEq σ]
    (spec : ComponentSpec σ ω) (s : Sched σ) (f : σ → σ) (fs : List (σ → σ)) :
    observedOutput spec (setState f s) = observedOutput spec s ∧
    observedOutput spec (fs.foldl (fun a g => setState g a) s) = observedOutput spec s ∧
    (setState f s).pending = f s.pending := by
  refine ⟨rfl, ?_, rfl⟩
  unfold observedOutput
  rw [foldl_setState_committed]

/-- A component whose effect only sets the label and neither enqueues a
state update nor starts a promise chain. -/
def labelEffectSpec {σ ω : Type} (render : σ → ω) (titleF : σ → Option String) :
    ComponentSpec σ ω :=
  ⟨render, fun t => ⟨titleF t, none, []⟩, .always⟩

/-- C4: all setter calls to one component issued in the same synchronous
frame coalesce — the next `flushSync` drain performs exactly one render
pass (`renderCount` grows by one), and the commit is atomic: the
committed state jumps directly to the composite of all the updates, no
intermediate value is ever committed. -/
theorem same_tick_setters_single_render_pass {σ ω : Type} [DecidableEq σ]
    (render : σ → ω) (titleF : σ → Option String) (cap : Nat)
    (fs : List (σ → σ)) (s : Sched σ)
    (hdirty : (fs.foldl (fun a g => setState g a) s).dirty = true) :
    drainSync (labelEffectSpec render titleF) (cap + 1) (fs.foldl (fun a g => setState g a) s) =
      .ok (flushPass (labelEffectSpec render titleF) (fs.foldl (fun a g => setState g a) s)) ∧
    (flushPass (labelEffectSpec render titleF)
        (fs.foldl (fun a g => setState g a) s)).renderCount = s.renderCount + 1 ∧
    (flushPass (labelEffectSpec render titleF)
        (fs.foldl (fun a g => setState g a) s)).committed =
      fs.foldl (fun v g => g v) s.pending := by
  set s1 := fs.foldl (fun a g => setState g a) s with hs1
  have hpass : flushPass (labelEffectSpec render titleF) s1 =
      { s1 with committed := s1.pending, dirty := false, renderCount := s1.renderCount + 1,
                effectRan := true,
                title := (titleF s1.pending).getD s1.title,
                micro := s1.micro ++ [] } := by
    rw [flushPass, if_pos hdirty]
    rfl
  refine ⟨?_, ?_, ?_⟩
  · rw [drainSync, if_pos hdirty]
    apply drainSync_clean
    rw [hpass]
  · rw [hpass]
    show s1.renderCount + 1 = s.renderCount + 1
    rw [hs1, foldl_setState_renderCount]
  · rw [hpass]
    show s1.pending = _
    rw [hs1, foldl_setState_pending]

/-- C4 witness: two coalesced updates (`set 5`, then `+ 1`) on a clean
Nat-state component with a trivial label: one render pass, committed
value 6. -/
theorem same_tick_setters_single_render_pass_witness :
    drainSync (labelEffectSpec (toString : Nat → String) (fun _ => none)) 3
        ([fun _ => 5, fun v => v + 1].foldl (fun a g => setState g a)
          ⟨0, 0, false, 0, false, "", [], []⟩) =
      .ok (flushPass (labelEffectSpec (toString : Nat → String) (fun _ => none))
        ([fun _ => 5, fun v => v + 1].foldl (fun a g => setState g a)
          ⟨0, 0, false, 0, false, "", [], []⟩)) ∧
    (flushPass (labelEffectSpec (toString : Nat → String) (fun _ => none))
        ([fun _ => 5, fun v => v + 1].foldl (fun a g => setState g a)
          ⟨0, 0, false, 0, false, "", [], []⟩)).renderCount =
      (⟨0, 0, false, 0, false, "", [], []⟩ : Sched Nat).renderCount + 1 ∧
    (flushPass (labelEffectSpec (toString : Nat → String) (fun _ => none))
        ([fun _ => 5, fun v => v + 1].foldl (fun a g => setState g a)
          ⟨0, 0, false, 0, false, "", [], []⟩)).committed =
      [fun _ => 5, fun v => v + 1].foldl (fun v g => g v)
        (⟨0, 0, false, 0, false, "", [], []⟩ : Sched Nat).pending :=
  same_tick_setters_single_render_pass (toString : Nat → String) (fun _ => none) 2
    [fun _ => 5, fun v => v + 1] ⟨0, 0, false, 0, false, "", [], []⟩ rfl

/-- A component whose effect always enqueues a changing state update:
each render/effect pass dirties the component again, so the drain never
converges. -/
def cycleCounter : ComponentSpec Nat Nat :=
  ⟨fun n => n, fun _ => ⟨none, some (fun m => m + 1), []⟩, .always⟩

/-- One pass over a dirty `cycleCounter` leaves it dirty again. -/
theorem flushPass_cycleCounter_dirty (t : Sched Nat) (ht : t.dirty = true) :
    (flushPass cycleCounter t).dirty = true := by
  rw [flushPass, if_pos ht]
  simp [cycleCounter, effectDue, setState]

/-- C8: the `flushSync` drain loop is a total function that either
reaches the quiescent configuration — every successful drain ends with
the Pending Work Queue empty (`dirty = false`) — or, when each
render/effect pass enqueues a further state update as `cycleCounter`
does, fails with `ScheduleOverflowError` at every iteration cap; it
never loops unboundedly. -/
theorem flushSync_drains_until_empty_or_overflow {σ ω : Type} [DecidableEq σ]
    (spec : ComponentSpec σ ω) (cap : Nat) (s s2 : Sched σ)
    (hok : drainSync spec cap s = .ok s2)
    (t : Sched Nat) (ht : t.dirty = true) :
    s2.dirty = false ∧
    drainSync cycleCounter cap t = .error .scheduleOverflow := by
  constructor
  · induction cap generalizing s with
    | zero =>
      rw [drainSync] at hok
      by_cases hd : s.dirty
      · simp [hd] at hok
      · simp [hd] at hok
        rw [← hok]
        exact eq_false_of_ne_true hd
    | succ cap ih =>
      rw [drainSync] at hok
      by_cases hd : s.dirty
      · rw [if_pos hd] at hok
        exact ih _ hok
      · rw [if_neg hd] at hok
        cases hok
        exact eq_false_of_ne_true hd
  · clear hok
    induction cap generalizing t with
    | zero => rw [drainSync, if_pos ht]
    | succ cap ih =>
      rw [drainSync, if_pos ht]
      exact ih _ (flushPass_cycleCounter_dirty t ht)

/-- C8 witness: a clean component drains successfully (with the empty
queue), while the cycling component overflows at cap 3. -/
theorem flushSync_drains_until_empty_or_overflow_witness :
    (⟨0, 0, false, 0, false, "", [], []⟩ : Sched Nat).dirty = false ∧
    drainSync cycleCounter 3 (initialSched 0) = .error .scheduleOverflow :=
  flushSync_drains_until_empty_or_overflow (labelEffectSpec (fun n : Nat => n) (fun _ => none))
    3 ⟨0, 0, false, 0, false, "", [], []⟩ ⟨0, 0, false, 0, false, "", [], []⟩
    (by rfl) (initialSched 0) rfl

/-- The scheduler state after mounting `Counter` inside a synchronous
flush: the mount render committed and its effect already ran. -/
def mountedCounter : Sched Nat :=
  ⟨0, 0, false, 1, true, counterDisplay 0, [], []⟩

/-- C6: every effect scheduled by a render committed during a flush has
run when the flush returns — after a successful drain the label equals
the effect output for the final committed state.  Instance: the counter
mounts showing "You clicked 0 times" with the title already equal, and
one increment plus a synchronous flush yields displayed value and
title "You clicked 1 times" within the same flush. -/
theorem effects_run_within_flush_counter {σ : Type} [DecidableEq σ] {ω : Type}
    (render : σ → ω) (titleF : σ → String) (cap : Nat) (s s2 : Sched σ)
    (hd : s.dirty = true)
    (hok : drainSync (labelEffectSpec render (fun t => some (titleF t))) cap s = .ok s2) :
    s2.title = titleF s2.committed ∧
    drainSync Counter 5 (initialSched 0) = .ok mountedCounter ∧
    observedOutput Counter mountedCounter = "You clicked 0 times" ∧
    mountedCounter.title = "You clicked 0 times" ∧
    (flushSync Counter 5 counterHandleClick mountedCounter).map
        (fun u => (observedOutput Counter u, u.title)) =
      .ok ("You clicked 1 times", "You clicked 1 times") := by
  refine ⟨?_, rfl, rfl, rfl, rfl⟩
  cases cap with
  | zero =>
    rw [drainSync, if_pos hd] at hok
    exact absurd hok (by simp)
  | succ cap =>
    rw [drainSync, if_pos hd] at hok
    have hpass : flushPass (labelEffectSpec render (fun t => some (titleF t))) s =
        { s with committed := s.pending, dirty := false,
                 renderCount := s.renderCount + 1, effectRan := true,
                 title := titleF s.pending, micro := s.micro ++ [] } := by
      rw [flushPass, if_pos hd]
      rfl
    rw [hpass, drainSync_clean _ _ _ rfl] at hok
    simp only [Except.ok.injEq] at hok
    rw [← hok]

/-- C6 witness: the theorem applied to mounting the counter itself. -/
theorem effects_run_within_flush_counter_witness :
    mountedCounter.title = counterDisplay mountedCounter.committed ∧
    drainSync Counter 5 (initialSched 0) = .ok mountedCounter ∧
    observedOutput Counter mountedCounter = "You clicked 0 times" ∧
    mountedCounter.title = "You clicked 0 times" ∧
    (flushSync Counter 5 counterHandleClick mountedCounter).map
        (fun u => (observedOutput Counter u, u.title)) =
      .ok ("You clicked 1 times", "You clicked 1 times") :=
  effects_run_within_flush_counter (fun c => counterDisplay c) counterDisplay 5
    (initialSched 0) mountedCounter rfl rfl

/-- The scheduler state after mounting `Names` inside a flush: the mount
render committed an empty list, nothing else pending. -/
def mountedNames : Sched (List String) :=
  ⟨[], [], false, 1, true, "", [], []⟩

/-- C7: with `fetchNames` mocked to a fixed list containing "jill" and
"bob", triggering the load action and awaiting `flushAsync` commits an
output containing both names; triggering the load action without any
flush leaves the committed output list empty. -/
theorem names_load_then_flushAsync_scenario :
    drainSync Names 5 (initialSched ([] : List String)) = .ok mountedNames ∧
    observedOutput Names mountedNames = [] ∧
    observedOutput Names (namesHandleClick mountedNames) = [] ∧
    (flushAsync Names 5 namesHandleClick mountedNames).map
        (fun u => observedOutput Names u) = .ok mockNames ∧
    "jill" ∈ mockNames ∧ "bob" ∈ mockNames := by
  exact ⟨rfl, rfl, rfl, rfl, by decide, by decide⟩

/-- Running a setter with a genuinely new value records it as pending
and dirties the component. -/
theorem setState_of_ne {σ : Type} [DecidableEq σ] (f : σ → σ) (s : Sched σ)
    (h : ¬ f s.pending = s.pending) :
    setState f s = { s with pending := f s.pending, dirty := true } := by
  unfold setState
  simp [h]

/-- C2: a single `flushAsync` settles a state update chained through any
number `d` of additional promise resolutions before the setter runs —
the todo list whose fetch result arrives after `d` extra microtask hops
always shows the three mocked titles when `flushAsync` resolves; there
is no fixed promise-chain-depth limit. -/
theorem flushAsync_settles_promise_chain_any_depth (d : Nat) :
    (flushAsync (TodoList mockTodos d) 5 (fun s => s) (initialSched [])).map
        (fun u => observedOutput (TodoList mockTodos d) u) =
      .ok ["first todo", "second todo", "third todo"] := by
  have e1 : drainSync (TodoList mockTodos d) 5 (drainMicro (initialSched ([] : List Todo))) =
      .ok ⟨[], [], false, 1, true, "", [chainN d (MicroTask.set (fun _ => mockTodos))], []⟩ :=
    rfl
  have e2 : drainMicro (⟨[], [], false, 1, true, "",
        [chainN d (MicroTask.set (fun _ => mockTodos))], []⟩ : Sched (List Todo)) =
      ⟨[], mockTodos, true, 1, true, "", [], []⟩ := by
    rw [drainMicro_single_chain d (fun _ => mockTodos) _ rfl]
    rfl
  have h2 : drainSync (TodoList mockTodos d) 5 (drainMicro (⟨[], [], false, 1, true, "",
        [chainN d (MicroTask.set (fun _ => mockTodos))], []⟩ : Sched (List Todo))) =
      .ok ⟨mockTodos, mockTodos, false, 2, true, "", [], []⟩ := by
    rw [e2]
    rfl
  have h1 := flushAsyncRounds_step (TodoList mockTodos d) 5 4 (initialSched []) _ e1
  have h3 := flushAsyncRounds_step (TodoList mockTodos d) 5 3 _ _ h2
  calc (flushAsync (TodoList mockTodos d) 5 (fun s => s) (initialSched [])).map
        (fun u => observedOutput (TodoList mockTodos d) u)
      = (flushAsyncRounds (TodoList mockTodos d) 5 (4 + 1) (initialSched [])).map
          (fun u => observedOutput (TodoList mockTodos d) u) := rfl
    _ = (flushAsyncRounds (TodoList mockTodos d) 5 (3 + 1)
          (⟨[], [], false, 1, true, "",
            [chainN d (MicroTask.set (fun _ => mockTodos))], []⟩ : Sched (List Todo))).map
          (fun u => observedOutput (TodoList mockTodos d) u) := by rw [h1]; rfl
    _ = ((Except.ok (⟨mockTodos, mockTodos, false, 2, true, "", [], []⟩ :
            Sched (List Todo)) : Except SchedError (Sched (List Todo)))).map
          (fun u => observedOutput (TodoList mockTodos d) u) := by rw [h3]; rfl
    _ = .ok ["first todo", "second todo", "third todo"] := rfl

/-- The scheduler state after mounting `SearchResults` inside a flush. -/
def mountedSearch : Sched (String × List String) :=
  ⟨("", []), ("", []), false, 1, true, "", [], []⟩

/-- C1: a state update deferred through a timer is not settled by
`flushAsync` — after typing "search term" (which schedules `setResults`
inside a `setTimeout`) and awaiting `flushAsync`, the committed output
has the typed input but still an empty result list, and the timer is
still pending; after advancing one event-loop tick (exactly the drain a
`waitFor` poll performs before its check) the committed output holds
the scheduled results, including "result 1 for search term". -/
theorem searchResults_timer_pending_after_flushAsync (n : Nat) (hn : 0 < n) :
    ∃ s1 : Sched (String × List String),
      drainSync SearchResults 5 (initialSched ("", [])) = .ok mountedSearch ∧
      flushAsync SearchResults 5 (handleChange n "search term") mountedSearch = .ok s1 ∧
      observedOutput SearchResults s1 = ("search term", []) ∧
      "result 1 for search term" ∉ (observedOutput SearchResults s1).2 ∧
      s1.timers ≠ [] ∧
      (advanceTick SearchResults 5 s1).map (fun u => (observedOutput SearchResults u).2) =
        .ok (timerCallbackResults n "search term") ∧
      "result 1 for search term" ∈ timerCallbackResults n "search term" := by
  have htcr_len : (timerCallbackResults n "search term").length = n := by
    simp [timerCallbackResults]
  have htcr_ne : timerCallbackResults n "search term" ≠ [] := by
    intro h
    rw [h] at htcr_len
    simp at htcr_len
    omega
  refine ⟨⟨("search term", []), ("search term", []), false, 2, true, "", [],
      [MicroTask.set (fun p => (p.1, timerCallbackResults n "search term"))]⟩,
    rfl, rfl, rfl, ?_, ?_, ?_, ?_⟩
  · show "result 1 for search term" ∉ ([] : List String)
    simp
  · show _ ≠ ([] : List (MicroTask (String × List String)))
    simp
  · show (drainSync SearchResults 5 (drainMicro
        (setState (fun p => (p.1, timerCallbackResults n "search term"))
          (⟨("search term", []), ("search term", []), false, 2, true, "", [], []⟩ :
            Sched (String × List String))))).map
        (fun u => (observedOutput SearchResults u).2) =
      .ok (timerCallbackResults n "search term")
    rw [setState_of_ne _ _ (by simp [htcr_ne])]
    rfl
  · have hexp : timerCallbackResults n "search term" =
        (List.range n).map
          (fun i => "result " ++ toString (i + 1) ++ " for " ++ "search term") := by
      simp [timerCallbackResults]
    rw [hexp]
    exact List.mem_map.mpr ⟨0, List.mem_range.mpr hn, by decide⟩

/-- C1 witness: the theorem applied at the drawn result count 3. -/
theorem searchResults_timer_pending_after_flushAsync_witness :
    ∃ s1 : Sched (String × List String),
      drainSync SearchResults 5 (initialSched ("", [])) = .ok mountedSearch ∧
      flushAsync SearchResults 5 (handleChange 3 "search term") mountedSearch = .ok s1 ∧
      observedOutput SearchResults s1 = ("search term", []) ∧
      "result 1 for search term" ∉ (observedOutput SearchResults s1).2 ∧
      s1.timers ≠ [] ∧
      (advanceTick SearchResults 5 s1).map (fun u => (observedOutput SearchResults u).2) =
        .ok (timerCallbackResults 3 "search term") ∧
      "result 1 for search term" ∈ timerCallbackResults 3 "search term" :=
  searchResults_timer_pending_after_flushAsync 3 (by decide)

/-- A predicate as `waitFor` sees it, which first stops throwing at
elapsed time `N * interval`: every earlier evaluation throws `err t`. -/
def stepPredicate (N interval : Nat) (err : Nat → String) (t : Nat) : Except String Unit :=
  if N * interval ≤ t then .ok () else .error (err t)

/-- When the predicate succeeds at poll `N` and `N * interval` is below
the timeout, the polling loop reaches that poll and resolves. -/
theorem waitForAux_success (N timeout interval : Nat) (err : Nat → String)
    (hi : 1 ≤ interval) (hto : N * interval < timeout) :
    ∀ (fuel i : Nat) (lastErr : String), 1 ≤ i → i ≤ N → N - i < fuel →
      waitForAux (stepPredicate N interval err) timeout interval fuel i lastErr = .ok () := by
  intro fuel
  induction fuel with
  | zero =>
    intro i lastErr h1 h2 h3
    omega
  | succ fuel ih =>
    intro i lastErr h1 h2 h3
    rw [waitForAux]
    have hguard : i * interval < timeout :=
      lt_of_le_of_lt (Nat.mul_le_mul_right interval h2) hto
    rw [if_pos hguard]
    by_cases hiN : i = N
    · subst hiN
      simp [stepPredicate]
    · have hpred : stepPredicate N interval err (i * interval) =
          .error (err (i * interval)) := by
        unfold stepPredicate
        rw [if_neg]
        intro hle
        have := Nat.le_of_mul_le_mul_right hle (by omega : 0 < interval)
        omega
      rw [hpred]
      exact ih (i + 1) _ (by omega) (by omega) (by omega)

/-- A poll index whose elapsed time already reaches the bound is never
evaluated: the loop times out at once, surfacing the error it carries. -/
theorem waitForAux_no_poll (pred : Nat → Except String Unit) (timeout interval : Nat)
    (fuel i : Nat) (lastErr : String) (h : ¬ i * interval < timeout) :
    waitForAux pred timeout interval fuel i lastErr = .error ⟨lastErr⟩ := by
  cases fuel with
  | zero => rfl
  | succ fuel => rw [waitForAux, if_neg h]

/-- When `N * interval` is not below the timeout, every executed poll
throws, and the loop ends in a `TimeoutError` whose message is exactly
the error thrown at the last executed poll — the poll `L` with
`L * interval < timeout ≤ (L + 1) * interval`. -/
theorem waitForAux_last_error (N timeout interval : Nat) (err : Nat → String)
    (hi : 1 ≤ interval) (hto : ¬ N * interval < timeout) :
    ∀ (fuel i : Nat) (lastErr : String), 1 ≤ i → i * interval < timeout →
      timeout < fuel + i →
      ∃ L, i ≤ L ∧ L * interval < timeout ∧ timeout ≤ (L + 1) * interval ∧
        waitForAux (stepPredicate N interval err) timeout interval fuel i lastErr =
          .error ⟨err (L * interval)⟩ := by
  intro fuel
  induction fuel with
  | zero =>
    intro i lastErr h1 hguard hfuel
    have : i ≤ i * interval := Nat.le_mul_of_pos_right i (by omega)
    omega
  | succ fuel ih =>
    intro i lastErr h1 hguard hfuel
    rw [waitForAux, if_pos hguard]
    have hpred : stepPredicate N interval err (i * interval) =
        .error (err (i * interval)) := by
      unfold stepPredicate
      rw [if_neg]
      omega
    rw [hpred]
    by_cases hnext : (i + 1) * interval < timeout
    · obtain ⟨L, hL1, hL2, hL3, hL4⟩ :=
        ih (i + 1) (err (i * interval)) (by omega) hnext (by omega)
      exact ⟨L, by omega, hL2, hL3, hL4⟩
    · exact ⟨i, le_refl i, hguard, by omega,
        waitForAux_no_poll _ _ _ fuel (i + 1) _ hnext⟩

/-- C5: `waitFor` polls the predicate on the fixed interval (a throwing
predicate counts as not yet satisfied and is retried, and it resolves
on the first non-throwing evaluation): for a predicate that first
succeeds at poll `N`, `waitFor` resolves successfully iff
`N * interval < timeout`; otherwise it fails with `TimeoutError`
carrying as the failure reason the error thrown at the last executed
poll — the poll `L` with `L * interval < timeout ≤ (L + 1) * interval`
— or the synthesized message exactly when no poll ran at all. -/
theorem waitFor_resolves_iff_within_timeout (N timeout interval : Nat) (err : Nat → String)
    (hN : 1 ≤ N) (hi : 1 ≤ interval) :
    (waitFor (stepPredicate N interval err) timeout interval = .ok () ↔
      N * interval < timeout) ∧
    (¬ N * interval < timeout → interval < timeout →
      ∃ L, 1 ≤ L ∧ L * interval < timeout ∧ timeout ≤ (L + 1) * interval ∧
        waitFor (stepPredicate N interval err) timeout interval =
          .error ⟨err (L * interval)⟩) ∧
    (¬ N * interval < timeout → ¬ interval < timeout →
      waitFor (stepPredicate N interval err) timeout interval =
        .error ⟨synthesizedTimeoutMessage⟩) := by
  refine ⟨⟨?_, ?_⟩, ?_, ?_⟩
  · intro hok
    by_contra hto
    by_cases hfirst : interval < timeout
    · obtain ⟨L, _, _, _, hm⟩ :=
        waitForAux_last_error N timeout interval err hi hto timeout 1 _ (by omega)
          (by omega) (by omega)
      rw [waitFor, hm] at hok
      exact absurd hok (by simp)
    · have hm := waitForAux_no_poll (stepPredicate N interval err) timeout interval
        timeout 1 synthesizedTimeoutMessage (by omega)
      rw [waitFor, hm] at hok
      exact absurd hok (by simp)
  · intro hto
    rw [waitFor]
    have hN_lt : N - 1 < timeout := by
      have : N ≤ N * interval := Nat.le_mul_of_pos_right N (by omega)
      omega
    exact waitForAux_success N timeout interval err hi hto timeout 1 _ (by omega) hN hN_lt
  · intro hto hfirst
    obtain ⟨L, hL1, hL2, hL3, hm⟩ :=
      waitForAux_last_error N timeout interval err hi hto timeout 1 _ (by omega)
        (by omega) (by omega)
    exact ⟨L, hL1, hL2, hL3, by rw [waitFor]; exact hm⟩
  · intro hto hfirst
    rw [waitFor]
    exact waitForAux_no_poll _ _ _ timeout 1 _ (by omega)

/-- C5 witness: the theorem applied at `N = 20`, interval 10, timeout
95 — a timing-out instance, where polls run at elapsed times 10..90,
all throw, and the surfaced reason is the error of the last poll
(`L = 9`, elapsed time 90). -/
theorem waitFor_resolves_iff_within_timeout_witness :
    (waitFor (stepPredicate 20 10 (fun t => "nope at " ++ toString t)) 95 10 = .ok () ↔
      20 * 10 < 95) ∧
    (¬ 20 * 10 < 95 → 10 < 95 →
      ∃ L, 1 ≤ L ∧ L * 10 < 95 ∧ 95 ≤ (L + 1) * 10 ∧
        waitFor (stepPredicate 20 10 (fun t => "nope at " ++ toString t)) 95 10 =
          .error ⟨(fun t => "nope at " ++ toString t) (L * 10)⟩) ∧
    (¬ 20 * 10 < 95 → ¬ 10 < 95 →
      waitFor (stepPredicate 20 10 (fun t => "nope at " ++ toString t)) 95 10 =
        .error ⟨synthesizedTimeoutMessage⟩) :=
  waitFor_resolves_iff_within_timeout 20 95 10 (fun t => "nope at " ++ toString t)
    (by decide) (by decide)

end AsyncTesting
